import Mathlib

/-!
Shallow embedding of `src/anova/anova.py` (synthetic-dataset generator and
one-way ANOVA engine) and verification of the specification claims.

Python floats are modelled by exact rationals; the two places where IEEE
special values genuinely matter (division by a zero degree of freedom and by a
zero mean square) are modelled by the type `PyFloat`, which carries the IEEE
outcomes `+inf`, `-inf` and `nan` of those divisions explicitly.
-/

namespace Anova

/-- A dataset row: the `level` column (an integer group label, as produced by
`np.arange`) paired with the observed `y` value.  A pandas `DataFrame` with the
two columns `level` and `y` is the ordered list of its rows. -/
abbrev Dataset := List (ℤ × ℚ)

/-- Result of a Python float computation: either a finite value (modelled
exactly as a rational) or one of the IEEE special values that the source can
produce by dividing by zero. -/
inductive PyFloat where
  | fin : ℚ → PyFloat
  | pinf : PyFloat
  | ninf : PyFloat
  | nan : PyFloat
deriving DecidableEq, Repr

namespace PyFloat

/-- Division of a finite float by a finite float, with the IEEE zero-divisor
behaviour of numpy (`x/0` is `+inf` for `x > 0`, `-inf` for `x < 0`, and `nan`
for `0/0`, each with a `RuntimeWarning` but no exception). -/
def divQ (x y : ℚ) : PyFloat :=
  if y = 0 then (if 0 < x then pinf else if x < 0 then ninf else nan) else fin (x / y)

/-- IEEE division on `PyFloat` values (only the finite/finite case with a zero
divisor actually arises in the source; the other cases follow IEEE 754). -/
def div : PyFloat → PyFloat → PyFloat
  | fin a, fin b => divQ a b
  | nan, _ => nan
  | fin _, nan => nan
  | pinf, nan => nan
  | ninf, nan => nan
  | pinf, fin b => if 0 ≤ b then pinf else ninf
  | ninf, fin b => if 0 ≤ b then ninf else pinf
  | fin _, pinf => fin 0
  | fin _, ninf => fin 0
  | pinf, pinf => nan
  | pinf, ninf => nan
  | ninf, pinf => nan
  | ninf, ninf => nan

/-- The IEEE comparison `x >= 0`: false on `nan` (any comparison with `nan` is
false) and on `-inf`, true on `+inf`. -/
def isNonneg : PyFloat → Bool
  | fin q => decide (0 ≤ q)
  | pinf => true
  | ninf => false
  | nan => false

/-- The IEEE conjunction `0 <= x and x <= 1`: false on every special value. -/
def isIn01 : PyFloat → Bool
  | fin q => decide (0 ≤ q) && decide (q ≤ 1)
  | pinf => false
  | ninf => false
  | nan => false

end PyFloat

/-! ### Dataset generator (`generate_dataset`) -/

/-- Modelled from the spec: `np.random.default_rng(seed).normal` — the seeded
pseudo-random Normal sampler is missing from the repository (it lives in
numpy).  Per the spec it is a deterministic function of the seed and of the
draw index producing, for draw `k`, a sample of the Normal distribution with
mean `loc` and standard deviation `scale`; we model the standard-normal stream
by an explicit deterministic mixing formula and the sample by the
location-scale transform `loc + scale * z`. -/
def normalSample (s : ℤ) (k : ℕ) (loc scale : ℚ) : ℚ :=
  loc + scale * (((s + 31 * (k : ℤ) + 7) % 17 - 8 : ℤ) : ℚ) / 9

/-- Model of `np.repeat(xs, n)`: each element repeated `n` times in order. -/
def repeatEach (n : ℕ) : List α → List α
  | [] => []
  | x :: xs => List.replicate n x ++ repeatEach n xs

/-- Drawing one Normal sample per entry of `locs` from the stream of generator
`s`, starting at draw index `k`: models `rng.normal(loc=locs, scale=scale)`,
which draws the samples in order. -/
def drawsFrom (s : ℤ) (scale : ℚ) : ℕ → List ℚ → List ℚ
  | _, [] => []
  | k, loc :: locs => normalSample s k loc scale :: drawsFrom s scale (k + 1) locs

/-- The hidden true means, `means = intercept + 0.6 * levels` in the source:
the supplied `slope` does not appear in this line. -/
def hiddenMeans (a : ℕ) (intercept : ℚ) : List ℚ :=
  (List.range a).map (fun (i : ℕ) => intercept + 0.6 * (i : ℚ))

/-- Embedding of `generate_dataset(a, n, slope, intercept, sigma, seed)`.

`entropy` models the operating-system entropy that `np.random.default_rng()`
uses when `seed is None`; when a seed is supplied the generator is seeded with
it (`np.random.default_rng(seed)`) and `entropy` is not consulted.  `levels`
is `np.arange(a)`; the `level` column is `np.repeat(levels, n)` and the `y`
column is `rng.normal(loc=np.repeat(means, n), scale=sigma)`; zipping the two
columns builds the `DataFrame`.  The `slope` argument is accepted and never
used, exactly as in the source. -/
def generate_dataset (entropy : ℤ) (a n : ℕ) (slope intercept sigma : ℚ)
    (seed : Option ℤ) : Dataset :=
  let s := seed.getD entropy
  let levels : List ℤ := (List.range a).map Int.ofNat
  let means : List ℚ := hiddenMeans a intercept
  (repeatEach n levels).zip (drawsFrom s sigma 0 (repeatEach n means))

/-! ### ANOVA engine (`anova_one_way`) -/

/-- The set of distinct group labels, `df.groupby("level")`'s keys. -/
def levelSet (d : Dataset) : Finset ℤ := (d.map Prod.fst).toFinset

/-- `groups.ngroups`: the number of distinct groups, `a` in the source. -/
def nGroups (d : Dataset) : ℕ := (levelSet d).card

/-- The `y` values of the rows of group `l`: one group of the partition built
by `df.groupby("level")`. -/
def groupVals (d : Dataset) (l : ℤ) : List ℚ :=
  (d.filter (fun p => decide (p.1 = l))).map Prod.snd

/-- `xs.mean()`: the arithmetic mean of a list of values. -/
def listMean (xs : List ℚ) : ℚ := xs.sum / (xs.length : ℚ)

/-- `grand_mean = y.mean()`: the unweighted mean of all observed values. -/
def grandMean (d : Dataset) : ℚ := listMean (d.map Prod.snd)

/-- `ss_total = ((y - grand_mean) ** 2).sum()`. -/
def ssTotal (d : Dataset) : ℚ :=
  ((d.map Prod.snd).map (fun y => (y - grandMean d) ^ 2)).sum

/-- `ss_treat = (n_i * (group_means - grand_mean) ** 2).sum()`, where `n_i` is
`groups.size()` and `group_means` is `groups.mean()["y"]`, one entry per
distinct group. -/
def ssTreat (d : Dataset) : ℚ :=
  ∑ l ∈ levelSet d,
    ((groupVals d l).length : ℚ) * (listMean (groupVals d l) - grandMean d) ^ 2

/-- `ss_error = ss_total - ss_treat`: computed by subtraction in the source. -/
def ssError (d : Dataset) : ℚ := ssTotal d - ssTreat d

/-- `df_treat = a - 1` (Python integer arithmetic, hence `ℤ`). -/
def dfTreat (d : Dataset) : ℤ := (nGroups d : ℤ) - 1

/-- `df_error = N - a`. -/
def dfError (d : Dataset) : ℤ := (d.length : ℤ) - (nGroups d : ℤ)

/-- `df_total = N - 1`. -/
def dfTotal (d : Dataset) : ℤ := (d.length : ℤ) - 1

/-- `ms_treat = ss_treat / df_treat` (float divided by int, IEEE semantics). -/
def msTreat (d : Dataset) : PyFloat := PyFloat.divQ (ssTreat d) ((dfTreat d : ℚ))

/-- `ms_error = ss_error / df_error` (float divided by int, IEEE semantics). -/
def msError (d : Dataset) : PyFloat := PyFloat.divQ (ssError d) ((dfError d : ℚ))

/-- The result dictionary returned by `anova_one_way`, with its exact keys. -/
structure AnovaResult where
  SStotal : ℚ
  SStreatments : ℚ
  SSerror : ℚ
  df_treat : ℤ
  df_error : ℤ
  df_total : ℤ
  MS_treat : PyFloat
  MS_error : PyFloat
  F : PyFloat
  p_value : PyFloat
deriving DecidableEq, Repr

/-- The error the specification's contract names for insufficient data.  The
source file never defines or raises it; the type exists so that "fails with
`InsufficientDataError`" is statable about the embedding. -/
inductive AnovaError where
  | insufficientData
deriving DecidableEq, Repr

/-- The type of the external F-distribution survival function
`scipy.stats.f.sf(F, df_treat, df_error)`. -/
abbrev Sf := PyFloat → ℤ → ℤ → PyFloat

/-- Modelled from the spec: the contract of the external survival function
`scipy.stats.f.sf`, which is missing from the repository (it lives in scipy).
Per the spec the p-value is the upper-tail survival probability
`P(X > F)` of the F-distribution: on a finite argument it is a probability
(a finite value in `[0, 1]`); at `+inf` the survival probability is `0`; a
`nan` argument propagates to a `nan` result. -/
def SfContract (sf : Sf) : Prop :=
  (∀ x d1 d2, ∃ q, sf (.fin x) d1 d2 = .fin q ∧ 0 ≤ q ∧ q ≤ 1) ∧
  (∀ d1 d2, sf .pinf d1 d2 = .fin 0) ∧
  (∀ d1 d2, sf .nan d1 d2 = .nan)

/-- A concrete survival function satisfying `SfContract`, used to evaluate the
engine on concrete datasets. -/
def sf0 : Sf
  | .fin _, _, _ => .fin (1 / 2)
  | .pinf, _, _ => .fin 0
  | .ninf, _, _ => .fin 1
  | .nan, _, _ => .nan

/-- The record computed by the body of `anova_one_way`: each field is the
corresponding line of the source. -/
def anovaRes (sf : Sf) (d : Dataset) : AnovaResult :=
  { SStotal := ssTotal d
    SStreatments := ssTreat d
    SSerror := ssError d
    df_treat := dfTreat d
    df_error := dfError d
    df_total := dfTotal d
    MS_treat := msTreat d
    MS_error := msError d
    F := (msTreat d).div (msError d)
    p_value := sf ((msTreat d).div (msError d)) (dfTreat d) (dfError d) }

/-- Embedding of `anova_one_way(df)`.  The source body contains no validation
and no `raise` statement, and none of the numpy operations it performs can
raise on a well-formed two-column frame (zero-divisor divisions produce IEEE
special values with a warning): every call returns the computed dictionary, so
the error branch of the `Except` is never taken. -/
def anova_one_way (sf : Sf) (d : Dataset) : Except AnovaError AnovaResult :=
  Except.ok (anovaRes sf d)

/-! ### State-passing view of the engine

The source reads `df["y"].values` and `df.groupby("level")`; both pandas
operations are documented reads that do not mutate the frame.  The run
function threads the dataset through each read in source order, so the final
state is the dataset the caller passed in. -/

/-- Read of `df["y"].values`: returns the column and leaves the frame as is. -/
def readYCol (d : Dataset) : List ℚ × Dataset := (d.map Prod.snd, d)

/-- Read of `df.groupby("level")`: builds the partition keys and leaves the
frame as is. -/
def readGroups (d : Dataset) : Finset ℤ × Dataset := (levelSet d, d)

/-- The engine as a state transformer on the caller's dataset: performs the
two reads of the source in order and computes the result from what was read. -/
def anova_one_way_run (sf : Sf) (d : Dataset) :
    Except AnovaError AnovaResult × Dataset :=
  let yd := readYCol d
  let gd := readGroups yd.2
  (anova_one_way sf gd.2, gd.2)

/-! ### Partition and decomposition lemmas -/

lemma filter_level_eq_nil {d : Dataset} {l : ℤ} (h : l ∉ levelSet d) :
    d.filter (fun p => decide (p.1 = l)) = [] := by
  rw [List.filter_eq_nil_iff]
  intro p hp
  simp only [decide_eq_true_eq]
  intro hpl
  exact h (by simp only [levelSet, List.mem_toFinset, List.mem_map]; exact ⟨p, hp, hpl⟩)

lemma groupVals_ne_nil {d : Dataset} {l : ℤ} (h : l ∈ levelSet d) : groupVals d l ≠ [] := by
  simp only [levelSet, List.mem_toFinset, List.mem_map] at h
  rcases h with ⟨p, hp, hpl⟩
  intro hnil
  have hmem : p.2 ∈ groupVals d l := by
    simp only [groupVals, List.mem_map]
    exact ⟨p, List.mem_filter.mpr ⟨hp, by simp [hpl]⟩, rfl⟩
  rw [hnil] at hmem
  exact absurd hmem (List.not_mem_nil _)

/-- Summing any per-row quantity over a dataset equals summing it group by
group over the partition built by `groupby`. -/
lemma sum_partition (f : ℤ × ℚ → ℚ) (d : Dataset) :
    (d.map f).sum = ∑ l ∈ levelSet d, ((d.filter (fun p => decide (p.1 = l))).map f).sum := by
  induction d with
  | nil => simp [levelSet]
  | cons a t ih =>
    have hls : levelSet (a :: t) = insert a.1 (levelSet t) := by
      simp [levelSet]
    have hsummand : ∀ l : ℤ,
        (((a :: t).filter (fun p => decide (p.1 = l))).map f).sum
          = (if a.1 = l then f a else 0)
            + ((t.filter (fun p => decide (p.1 = l))).map f).sum := by
      intro l
      by_cases h : a.1 = l <;> simp [List.filter_cons, h]
    have hG : ∑ l ∈ insert a.1 (levelSet t),
          ((t.filter (fun p => decide (p.1 = l))).map f).sum
        = ∑ l ∈ levelSet t, ((t.filter (fun p => decide (p.1 = l))).map f).sum := by
      by_cases h : a.1 ∈ levelSet t
      · rw [Finset.insert_eq_self.mpr h]
      · rw [Finset.sum_insert h, filter_level_eq_nil h]
        simp
    rw [hls]
    rw [Finset.sum_congr rfl (fun l _ => hsummand l), Finset.sum_add_distrib, hG, ← ih]
    rw [Finset.sum_ite_eq]
    simp

lemma sum_map_quadratic (xs : List ℚ) (a b c : ℚ) :
    (xs.map (fun y => a * y ^ 2 + b * y + c)).sum
      = a * (xs.map (fun y => y ^ 2)).sum + b * xs.sum + c * (xs.length : ℚ) := by
  induction xs with
  | nil => simp
  | cons x t ih =>
    simp only [List.map_cons, List.sum_cons, ih, List.length_cons]
    push_cast
    ring

/-- Shift identity: summed squared deviations about any point `m` split into
the deviations about the list's own mean plus a between-means term. -/
lemma sum_sq_dev_shift (xs : List ℚ) (hxs : xs ≠ []) (m : ℚ) :
    (xs.map (fun y => (y - m) ^ 2)).sum
      = (xs.map (fun y => (y - listMean xs) ^ 2)).sum
        + (xs.length : ℚ) * (listMean xs - m) ^ 2 := by
  have hn : (xs.length : ℚ) ≠ 0 :=
    Nat.cast_ne_zero.mpr (List.length_pos.mpr hxs).ne'
  have h1 : ∀ c : ℚ, (xs.map (fun y => (y - c) ^ 2)).sum
      = 1 * (xs.map (fun y => y ^ 2)).sum + (-(2 * c)) * xs.sum + c ^ 2 * (xs.length : ℚ) := by
    intro c
    have hfun : (fun y : ℚ => (y - c) ^ 2)
        = fun y => 1 * y ^ 2 + (-(2 * c)) * y + c ^ 2 := by
      funext y; ring
    rw [hfun, sum_map_quadratic]
  rw [h1 m, h1 (listMean xs), listMean]
  field_simp
  ring

lemma sum_sq_nonneg (xs : List ℚ) (m : ℚ) : 0 ≤ (xs.map (fun y => (y - m) ^ 2)).sum := by
  apply List.sum_nonneg
  intro x hx
  rcases List.mem_map.mp hx with ⟨y, _, rfl⟩
  positivity

lemma ssTotal_eq_groups (d : Dataset) :
    ssTotal d = ∑ l ∈ levelSet d,
      ((groupVals d l).map (fun y => (y - grandMean d) ^ 2)).sum := by
  rw [ssTotal, List.map_map]
  simp only [Function.comp_def]
  rw [sum_partition (fun p => (p.2 - grandMean d) ^ 2) d]
  apply Finset.sum_congr rfl
  intro l _
  rw [groupVals, List.map_map]
  simp only [Function.comp_def]

/-- The ANOVA decomposition: the subtraction-defined `ss_error` equals the
direct accumulation of within-group squared deviations. -/
lemma ssError_eq_within (d : Dataset) :
    ssError d = ∑ l ∈ levelSet d,
      ((groupVals d l).map (fun y => (y - listMean (groupVals d l)) ^ 2)).sum := by
  have hgrp : ∀ l ∈ levelSet d,
      ((groupVals d l).map (fun y => (y - grandMean d) ^ 2)).sum
        = ((groupVals d l).map (fun y => (y - listMean (groupVals d l)) ^ 2)).sum
          + ((groupVals d l).length : ℚ) * (listMean (groupVals d l) - grandMean d) ^ 2 :=
    fun l hl => sum_sq_dev_shift _ (groupVals_ne_nil hl) _
  rw [ssError, ssTotal_eq_groups, Finset.sum_congr rfl hgrp, Finset.sum_add_distrib, ssTreat]
  ring

lemma ssTotal_nonneg (d : Dataset) : 0 ≤ ssTotal d := by
  rw [ssTotal]; exact sum_sq_nonneg _ _

lemma ssTreat_nonneg (d : Dataset) : 0 ≤ ssTreat d :=
  Finset.sum_nonneg fun _ _ => mul_nonneg (Nat.cast_nonneg _) (sq_nonneg _)

lemma ssError_nonneg (d : Dataset) : 0 ≤ ssError d := by
  rw [ssError_eq_within]
  exact Finset.sum_nonneg fun _ _ => sum_sq_nonneg _ _

lemma sf0_contract : SfContract sf0 :=
  ⟨fun _ _ _ => ⟨1 / 2, rfl, by norm_num, by norm_num⟩, fun _ _ => rfl, fun _ _ => rfl⟩

/-! ### Structure lemmas for the generator -/

lemma repeatEach_append (n : ℕ) (xs ys : List α) :
    repeatEach n (xs ++ ys) = repeatEach n xs ++ repeatEach n ys := by
  induction xs with
  | nil => simp [repeatEach]
  | cons x t ih => simp [repeatEach, ih]

lemma repeatEach_length (n : ℕ) (xs : List α) :
    (repeatEach n xs).length = n * xs.length := by
  induction xs with
  | nil => simp [repeatEach]
  | cons x t ih => simp [repeatEach, ih]; ring

lemma repeatEach_singleton (n : ℕ) (x : α) :
    repeatEach n [x] = List.replicate n x := by
  simp [repeatEach]

lemma drawsFrom_length (s : ℤ) (scale : ℚ) (k : ℕ) (xs : List ℚ) :
    (drawsFrom s scale k xs).length = xs.length := by
  induction xs generalizing k with
  | nil => rfl
  | cons x t ih => simp [drawsFrom, ih]

lemma drawsFrom_append (s : ℤ) (scale : ℚ) (k : ℕ) (xs ys : List ℚ) :
    drawsFrom s scale k (xs ++ ys)
      = drawsFrom s scale k xs ++ drawsFrom s scale (k + xs.length) ys := by
  induction xs generalizing k with
  | nil => simp [drawsFrom]
  | cons x t ih =>
    have h : k + 1 + t.length = k + (t.length + 1) := by omega
    show normalSample s k x scale :: drawsFrom s scale (k + 1) (t ++ ys)
        = drawsFrom s scale k (x :: t) ++ drawsFrom s scale (k + (x :: t).length) ys
    rw [ih (k + 1), h]
    rfl

lemma drawsFrom_replicate (s : ℤ) (scale : ℚ) (k n : ℕ) (m : ℚ) :
    drawsFrom s scale k (List.replicate n m)
      = (List.range n).map (fun j => normalSample s (k + j) m scale) := by
  induction n generalizing k with
  | zero => rfl
  | succ n ih =>
    rw [List.replicate_succ]
    show normalSample s k m scale :: drawsFrom s scale (k + 1) (List.replicate n m) = _
    rw [ih (k + 1), List.range_succ_eq_map]
    simp only [List.map_cons, List.map_map, Nat.add_zero, Function.comp_def]
    congr 1
    apply List.map_congr_left
    intro j _
    congr 1
    omega

lemma zip_replicate_map (c : ℤ) (n : ℕ) (f : ℕ → ℚ) :
    (List.replicate n c).zip ((List.range n).map f)
      = (List.range n).map (fun j => (c, f j)) := by
  have h : List.replicate n c = (List.range n).map (fun _ => c) := by
    rw [List.map_const']
    simp
  rw [h, List.zip_map']

/-- Normal form of the generator's output: the column construction by
`np.repeat` and `zip` equals the nested per-group, per-draw list, which makes
the grouping, the ascending level order and the draw order explicit. -/
lemma gen_core (s : ℤ) (n : ℕ) (sigma intercept : ℚ) (a : ℕ) :
    (repeatEach n ((List.range a).map Int.ofNat)).zip
        (drawsFrom s sigma 0 (repeatEach n (hiddenMeans a intercept)))
      = (List.range a).flatMap (fun i =>
          (List.range n).map (fun j =>
            (Int.ofNat i, normalSample s (i * n + j) (intercept + 0.6 * (i : ℚ)) sigma))) := by
  induction a with
  | zero => rfl
  | succ a ih =>
    have hm : hiddenMeans (a + 1) intercept
        = hiddenMeans a intercept ++ [intercept + 0.6 * (a : ℚ)] := by
      simp [hiddenMeans, List.range_succ]
    have hlm : (hiddenMeans a intercept).length = a := by
      rw [hiddenMeans, List.length_map, List.length_range]
    have hlen : (repeatEach n ((List.range a).map Int.ofNat)).length
        = (drawsFrom s sigma 0 (repeatEach n (hiddenMeans a intercept))).length := by
      rw [repeatEach_length, drawsFrom_length, repeatEach_length, hlm, List.length_map,
        List.length_range]
    rw [List.range_succ, List.map_append, hm, repeatEach_append, repeatEach_append,
      drawsFrom_append, List.zip_append hlen, List.flatMap_append, ih]
    congr 1
    simp only [List.map_cons, List.map_nil, repeatEach_singleton, List.flatMap_cons,
      List.flatMap_nil, List.append_nil]
    rw [repeatEach_length, hlm]
    rw [drawsFrom_replicate, zip_replicate_map]
    apply List.map_congr_left
    intro j _
    congr 2
    ring

end Anova
namespace Anova

/-! ### Concrete datasets used for witnesses and counterexamples -/

/-- A dataset with a single distinct group (`A = 1`, `N = 2`). -/
def dSingle : Dataset := [(0, 1), (0, 2)]

/-- A dataset with two groups of two in which every observation equals `1`. -/
def dConst : Dataset := [(0, 1), (0, 1), (1, 1), (1, 1)]

/-- A dataset with two groups of two in which every observation equals `2`. -/
def dAllTwo : Dataset := [(0, 2), (0, 2), (1, 2), (1, 2)]

/-- Two groups of two, constant within each group but with distinct group
means: zero within-group variance and nonzero between-group variance. -/
def dSep : Dataset := [(0, 0), (0, 0), (1, 1), (1, 1)]

/-- Two groups of two with distinct values everywhere. -/
def dMain : Dataset := [(0, 0), (0, 1), (1, 2), (1, 3)]

/-! ### Claim C1 -/

/-- C1 counterexample: on a dataset with a single distinct group the engine
does not fail with `InsufficientDataError` (the source defines and raises no
such error); it returns the computed dictionary, whose treatment mean square
is the IEEE `nan` produced by dividing by the zero degree of freedom. -/
theorem c1_insufficient_data_counterexample :
    nGroups dSingle = 1 ∧
      anova_one_way sf0 dSingle
        = Except.ok { SStotal := 1/2, SStreatments := 0, SSerror := 1/2,
                      df_treat := 0, df_error := 1, df_total := 1,
                      MS_treat := .nan, MS_error := .fin (1/2),
                      F := .nan, p_value := .nan } := by
  refine ⟨by decide, ?_⟩
  simp only [anova_one_way, anovaRes, ssTotal, ssTreat, ssError, dfTreat, dfError, dfTotal,
    msTreat, msError, grandMean, listMean, groupVals, levelSet, nGroups, dSingle,
    PyFloat.divQ, PyFloat.div, sf0, Except.ok.injEq, AnovaResult.mk.injEq]
  norm_num

/-- C1 amended: `anova_one_way` performs no validation. For every dataset with
fewer than two distinct groups, or with total count at most the group count,
the call does not raise: it returns the computed result, in which the
corresponding degree of freedom used as a divisor is non-positive. -/
theorem c1_no_validation (sf : Sf) (d : Dataset)
    (h : nGroups d < 2 ∨ (d.length : ℤ) ≤ (nGroups d : ℤ)) :
    anova_one_way sf d = Except.ok (anovaRes sf d) ∧
      ((anovaRes sf d).df_treat ≤ 0 ∨ (anovaRes sf d).df_error ≤ 0) := by
  refine ⟨rfl, ?_⟩
  rcases h with h | h
  · left
    show dfTreat d ≤ 0
    rw [dfTreat]; omega
  · right
    show dfError d ≤ 0
    rw [dfError]; omega

/-- C1 witness: the amended claim evaluated on the single-group dataset. -/
theorem c1_no_validation_witness :
    (nGroups dSingle < 2 ∨ (dSingle.length : ℤ) ≤ (nGroups dSingle : ℤ)) ∧
      (anova_one_way sf0 dSingle = Except.ok (anovaRes sf0 dSingle) ∧
        ((anovaRes sf0 dSingle).df_treat ≤ 0 ∨ (anovaRes sf0 dSingle).df_error ≤ 0)) :=
  ⟨Or.inl (by decide), c1_no_validation sf0 dSingle (Or.inl (by decide))⟩

/-! ### Claim C2 -/

/-- C2: the hidden true mean of group `i` is `intercept + 0.6 * i`, and the
supplied `slope` has no effect on the generated dataset at all. -/
theorem c2_slope_ignored (e : ℤ) (a n : ℕ) (s1 s2 intercept sigma : ℚ)
    (seed : Option ℤ) (i : ℕ) (h : i < a) :
    generate_dataset e a n s1 intercept sigma seed
      = generate_dataset e a n s2 intercept sigma seed ∧
    (hiddenMeans a intercept)[i]? = some (intercept + 0.6 * (i : ℚ)) := by
  refine ⟨rfl, ?_⟩
  rw [hiddenMeans, List.getElem?_map, List.getElem?_range h]
  rfl

/-- C2 witness: concrete slopes `3/2` and `9/4` generate the same dataset, and
the hidden mean of group `1` with intercept `7` is `7 + 0.6`. -/
theorem c2_slope_ignored_witness :
    generate_dataset 0 3 2 (3/2) 7 1 (some 4) = generate_dataset 0 3 2 (9/4) 7 1 (some 4) ∧
      (hiddenMeans 3 7)[1]? = some (7 + 0.6 * ((1 : ℕ) : ℚ)) :=
  c2_slope_ignored 0 3 2 (3/2) (9/4) 7 1 (some 4) 1 (by norm_num)

/-! ### Claim C3 -/

/-- C3: `ss_error` is computed by the subtraction `ss_total - ss_treat`, and
consequently the additivity `ss_total = ss_treat + ss_error` holds exactly in
the exact-arithmetic model (hence within any floating-point tolerance). -/
theorem c3_ss_additivity (sf : Sf) (d : Dataset) :
    (anovaRes sf d).SSerror = (anovaRes sf d).SStotal - (anovaRes sf d).SStreatments ∧
      (anovaRes sf d).SStotal = (anovaRes sf d).SStreatments + (anovaRes sf d).SSerror := by
  refine ⟨rfl, ?_⟩
  show ssTotal d = ssTreat d + ssError d
  rw [ssError]; ring

/-! ### Claim C4 -/

/-- C4: the degrees of freedom are `df_treat = A - 1`, `df_error = N - A`,
`df_total = N - 1`, and they satisfy `df_treat + df_error = df_total`. -/
theorem c4_degrees_of_freedom (sf : Sf) (d : Dataset) :
    (anovaRes sf d).df_treat = (nGroups d : ℤ) - 1 ∧
      (anovaRes sf d).df_error = (d.length : ℤ) - (nGroups d : ℤ) ∧
      (anovaRes sf d).df_total = (d.length : ℤ) - 1 ∧
      (anovaRes sf d).df_treat + (anovaRes sf d).df_error = (anovaRes sf d).df_total := by
  refine ⟨rfl, rfl, rfl, ?_⟩
  show dfTreat d + dfError d = dfTotal d
  rw [dfTreat, dfError, dfTotal]; ring

/-! ### Claim C5 -/

/-- C5: the grand mean is the unweighted mean of all observed values
(`Σ y / N`), `SS_total` sums squared deviations of every observation from the
grand mean, and `SS_treatment` sums `n_i * (mean_i - grand_mean)^2` over the
distinct groups, with `n_i` and `mean_i` each group's count and mean. -/
theorem c5_mean_and_ss_formulas (sf : Sf) (d : Dataset) :
    grandMean d = (d.map Prod.snd).sum / (d.length : ℚ) ∧
      (anovaRes sf d).SStotal = ((d.map Prod.snd).map (fun y => (y - grandMean d) ^ 2)).sum ∧
      (anovaRes sf d).SStreatments
        = ∑ l ∈ levelSet d,
            ((groupVals d l).length : ℚ) * (listMean (groupVals d l) - grandMean d) ^ 2 := by
  refine ⟨?_, rfl, rfl⟩
  rw [grandMean, listMean, List.length_map]

end Anova
namespace Anova

/-! ### Claim C6 -/

/-- C6 counterexample: on a dataset whose observations are all equal (two
groups of two, every value `1`) the call succeeds, but the F-statistic is the
IEEE `nan` arising from `0.0 / 0.0`, which is not non-negative, and the
p-value is `nan`, which does not lie in `[0, 1]`. -/
theorem c6_nonneg_counterexample :
    2 ≤ nGroups dConst ∧ nGroups dConst < dConst.length ∧
      anova_one_way sf0 dConst = Except.ok (anovaRes sf0 dConst) ∧
      (anovaRes sf0 dConst).F.isNonneg = false ∧
      (anovaRes sf0 dConst).p_value.isIn01 = false := by
  refine ⟨by decide, by decide, rfl, ?_⟩
  simp only [anovaRes, ssTotal, ssTreat, ssError, dfTreat, dfError, dfTotal, msTreat, msError,
    grandMean, listMean, groupVals, levelSet, nGroups, dConst, PyFloat.divQ, PyFloat.div, sf0]
  norm_num [PyFloat.isNonneg, PyFloat.isIn01]

/-- C6 amended: under the structural preconditions (`A ≥ 2` and `N > A`) and
for any survival function meeting its contract, all sums of squares and both
mean squares are non-negative — in particular the subtraction-defined
`SS_error` — and, whenever `SS_total ≠ 0`, the F-statistic is non-negative
and the p-value lies in `[0, 1]`; when `SS_total = 0` (all observations
equal) the F-statistic and p-value are instead IEEE `nan`, for which both
comparisons fail. -/
theorem c6_nonneg_amended (sf : Sf) (d : Dataset) (hsf : SfContract sf)
    (hA : 2 ≤ nGroups d) (hN : nGroups d < d.length) :
    0 ≤ (anovaRes sf d).SStotal ∧ 0 ≤ (anovaRes sf d).SStreatments ∧
      0 ≤ (anovaRes sf d).SSerror ∧
      (anovaRes sf d).MS_treat.isNonneg = true ∧
      (anovaRes sf d).MS_error.isNonneg = true ∧
      (if (anovaRes sf d).SStotal = 0
        then (anovaRes sf d).F = .nan ∧ (anovaRes sf d).p_value = .nan
        else (anovaRes sf d).F.isNonneg = true ∧ (anovaRes sf d).p_value.isIn01 = true) := by
  obtain ⟨hfin, hpinf, hnan⟩ := hsf
  have hdt : (0 : ℤ) < dfTreat d := by rw [dfTreat]; omega
  have hde : (0 : ℤ) < dfError d := by rw [dfError]; omega
  have hdtq : (0 : ℚ) < (dfTreat d : ℚ) := by exact_mod_cast hdt
  have hdeq : (0 : ℚ) < (dfError d : ℚ) := by exact_mod_cast hde
  have hmt : msTreat d = .fin (ssTreat d / (dfTreat d : ℚ)) := by
    rw [msTreat, PyFloat.divQ, if_neg hdtq.ne']
  have hme : msError d = .fin (ssError d / (dfError d : ℚ)) := by
    rw [msError, PyFloat.divQ, if_neg hdeq.ne']
  have hmtq : 0 ≤ ssTreat d / (dfTreat d : ℚ) := div_nonneg (ssTreat_nonneg d) hdtq.le
  have hmeq : 0 ≤ ssError d / (dfError d : ℚ) := div_nonneg (ssError_nonneg d) hdeq.le
  simp only [anovaRes]
  refine ⟨ssTotal_nonneg d, ssTreat_nonneg d, ssError_nonneg d, ?_, ?_, ?_⟩
  · rw [hmt]; simp [PyFloat.isNonneg, hmtq]
  · rw [hme]; simp [PyFloat.isNonneg, hmeq]
  · by_cases h0 : ssTotal d = 0
    · rw [if_pos h0]
      have hst : ssTreat d = 0 := by
        have h1 := ssTreat_nonneg d
        have h2 := ssError_nonneg d
        have h3 : ssError d = ssTotal d - ssTreat d := rfl
        nlinarith [h1, h2]
      have hse : ssError d = 0 := by rw [ssError, h0, hst]; ring
      have hF : (msTreat d).div (msError d) = .nan := by
        rw [hmt, hme, hst, hse, zero_div, zero_div]
        simp [PyFloat.div, PyFloat.divQ]
      rw [hF, hnan]
      exact ⟨rfl, rfl⟩
    · rw [if_neg h0]
      by_cases he : ssError d = 0
      · have hstpos : 0 < ssTreat d := by
          rcases eq_or_lt_of_le (ssTreat_nonneg d) with heq | h
          · exfalso
            apply h0
            rw [ssError] at he
            linarith
          · exact h
        have hmtpos : 0 < ssTreat d / (dfTreat d : ℚ) := div_pos hstpos hdtq
        have hF : (msTreat d).div (msError d) = .pinf := by
          rw [hmt, hme, he, zero_div]
          simp [PyFloat.div, PyFloat.divQ, hmtpos]
        rw [hF, hpinf]
        exact ⟨rfl, rfl⟩
      · have hsepos : 0 < ssError d := lt_of_le_of_ne (ssError_nonneg d) (Ne.symm he)
        have hmepos : 0 < ssError d / (dfError d : ℚ) := div_pos hsepos hdeq
        have hF : (msTreat d).div (msError d)
            = .fin (ssTreat d / (dfTreat d : ℚ) / (ssError d / (dfError d : ℚ))) := by
          rw [hmt, hme]
          simp [PyFloat.div, PyFloat.divQ, hmepos.ne']
        rw [hF]
        obtain ⟨q, hq, hq0, hq1⟩ :=
          hfin (ssTreat d / (dfTreat d : ℚ) / (ssError d / (dfError d : ℚ)))
            (dfTreat d) (dfError d)
        rw [hq]
        constructor
        · simp only [PyFloat.isNonneg, decide_eq_true_eq]
          exact div_nonneg hmtq hmepos.le
        · simp only [PyFloat.isIn01, Bool.and_eq_true, decide_eq_true_eq]
          exact ⟨hq0, hq1⟩

/-- C6 witness: the amended claim evaluated on a concrete two-group dataset
with nonzero total variance. -/
theorem c6_nonneg_witness :
    (2 ≤ nGroups dMain ∧ nGroups dMain < dMain.length) ∧
      (0 ≤ (anovaRes sf0 dMain).SStotal ∧ 0 ≤ (anovaRes sf0 dMain).SStreatments ∧
        0 ≤ (anovaRes sf0 dMain).SSerror ∧
        (anovaRes sf0 dMain).MS_treat.isNonneg = true ∧
        (anovaRes sf0 dMain).MS_error.isNonneg = true ∧
        (if (anovaRes sf0 dMain).SStotal = 0
          then (anovaRes sf0 dMain).F = .nan ∧ (anovaRes sf0 dMain).p_value = .nan
          else (anovaRes sf0 dMain).F.isNonneg = true ∧
            (anovaRes sf0 dMain).p_value.isIn01 = true)) :=
  ⟨⟨by decide, by decide⟩, c6_nonneg_amended sf0 dMain sf0_contract (by decide) (by decide)⟩

/-! ### Claim C7 -/

/-- C7 counterexample: a dataset in which every observation equals `2`
satisfies the structural preconditions and has `MS_error = 0`, yet the
F-statistic is `nan` (from `0.0 / 0.0`), not `+inf`, and the p-value is
`nan`, not `0`. -/
theorem c7_degenerate_counterexample :
    2 ≤ nGroups dAllTwo ∧ nGroups dAllTwo < dAllTwo.length ∧
      (anovaRes sf0 dAllTwo).MS_error = .fin 0 ∧
      (anovaRes sf0 dAllTwo).F = .nan ∧ (anovaRes sf0 dAllTwo).p_value = .nan := by
  refine ⟨by decide, by decide, ?_⟩
  simp only [anovaRes, ssTotal, ssTreat, ssError, dfTreat, dfError, dfTotal, msTreat, msError,
    grandMean, listMean, groupVals, levelSet, nGroups, dAllTwo, PyFloat.divQ, PyFloat.div, sf0]
  norm_num

/-- C7 amended: when the structural preconditions hold, `MS_error` is exactly
zero and `MS_treat` is nonzero (the group means are not all equal), the call
does not raise and produces the IEEE `+inf` F-statistic and a p-value of `0`;
the all-observations-equal case, where `MS_treat` is also zero, instead
yields `nan` (see the counterexample). -/
theorem c7_degenerate_amended (sf : Sf) (d : Dataset) (hsf : SfContract sf)
    (hA : 2 ≤ nGroups d) (hN : nGroups d < d.length)
    (hme0 : (anovaRes sf d).MS_error = .fin 0)
    (hmt0 : (anovaRes sf d).MS_treat ≠ .fin 0) :
    anova_one_way sf d = Except.ok (anovaRes sf d) ∧
      (anovaRes sf d).F = .pinf ∧ (anovaRes sf d).p_value = .fin 0 := by
  obtain ⟨hfin, hpinf, hnan⟩ := hsf
  have hdt : (0 : ℤ) < dfTreat d := by rw [dfTreat]; omega
  have hde : (0 : ℤ) < dfError d := by rw [dfError]; omega
  have hdtq : (0 : ℚ) < (dfTreat d : ℚ) := by exact_mod_cast hdt
  have hdeq : (0 : ℚ) < (dfError d : ℚ) := by exact_mod_cast hde
  have hmt : msTreat d = .fin (ssTreat d / (dfTreat d : ℚ)) := by
    rw [msTreat, PyFloat.divQ, if_neg hdtq.ne']
  have hme : msError d = .fin (ssError d / (dfError d : ℚ)) := by
    rw [msError, PyFloat.divQ, if_neg hdeq.ne']
  have hse : ssError d = 0 := by
    have h1 : msError d = .fin 0 := hme0
    rw [hme] at h1
    simp only [PyFloat.fin.injEq] at h1
    rcases div_eq_zero_iff.mp h1 with h | h
    · exact h
    · exact absurd h hdeq.ne'
  have hst : ssTreat d ≠ 0 := by
    intro h
    apply hmt0
    show msTreat d = .fin 0
    rw [hmt, h, zero_div]
  have hstpos : 0 < ssTreat d := lt_of_le_of_ne (ssTreat_nonneg d) (Ne.symm hst)
  have hmtpos : 0 < ssTreat d / (dfTreat d : ℚ) := div_pos hstpos hdtq
  have hF : (msTreat d).div (msError d) = .pinf := by
    rw [hmt, hme, hse, zero_div]
    simp [PyFloat.div, PyFloat.divQ, hmtpos]
  refine ⟨rfl, ?_, ?_⟩
  · show (msTreat d).div (msError d) = .pinf
    exact hF
  · show sf ((msTreat d).div (msError d)) (dfTreat d) (dfError d) = .fin 0
    rw [hF, hpinf]

/-- C7 witness: the amended claim evaluated on the dataset with zero
within-group variance but distinct group means. -/
theorem c7_degenerate_witness :
    ((anovaRes sf0 dSep).MS_error = .fin 0 ∧ (anovaRes sf0 dSep).MS_treat ≠ .fin 0) ∧
      (anova_one_way sf0 dSep = Except.ok (anovaRes sf0 dSep) ∧
        (anovaRes sf0 dSep).F = .pinf ∧ (anovaRes sf0 dSep).p_value = .fin 0) := by
  have hme : (anovaRes sf0 dSep).MS_error = .fin 0 := by
    simp only [anovaRes, ssTotal, ssTreat, ssError, dfTreat, dfError, dfTotal, msTreat,
      msError, grandMean, listMean, groupVals, levelSet, nGroups, dSep,
      PyFloat.divQ, PyFloat.div, sf0]
    norm_num
  have hmt : (anovaRes sf0 dSep).MS_treat ≠ .fin 0 := by
    simp only [anovaRes, ssTotal, ssTreat, ssError, dfTreat, dfError, dfTotal, msTreat,
      msError, grandMean, listMean, groupVals, levelSet, nGroups, dSep,
      PyFloat.divQ, PyFloat.div, sf0]
    norm_num
  exact ⟨⟨hme, hmt⟩,
    c7_degenerate_amended sf0 dSep sf0_contract (by decide) (by decide) hme hmt⟩

/-! ### Claim C8 -/

/-- C8: with a seed supplied, the generated dataset is a deterministic
function of the parameters alone — two calls with identical parameters and
the same seed agree exactly, whatever ambient entropy each call sees. -/
theorem c8_seeded_reproducibility (e1 e2 : ℤ) (a n : ℕ)
    (slope intercept sigma : ℚ) (s : ℤ) :
    generate_dataset e1 a n slope intercept sigma (some s)
      = generate_dataset e2 a n slope intercept sigma (some s) := rfl

/-! ### Claim C9 -/

/-- C9: the generated dataset has exactly `a * n` rows and equals the nested
per-group list: groups in ascending level order `0, 1, ...`, and within group
`i` the `n` samples in draw order (draw index `i * n + j` for the `j`-th
sample of group `i`), each drawn at the group's hidden mean. -/
theorem c9_output_ordering (e : ℤ) (a n : ℕ) (slope intercept sigma : ℚ)
    (seed : Option ℤ) :
    generate_dataset e a n slope intercept sigma seed
      = (List.range a).flatMap (fun i =>
          (List.range n).map (fun j =>
            (Int.ofNat i,
              normalSample (seed.getD e) (i * n + j) (intercept + 0.6 * (i : ℚ)) sigma))) ∧
      (generate_dataset e a n slope intercept sigma seed).length = a * n := by
  constructor
  · exact gen_core (seed.getD e) n sigma intercept a
  · show ((repeatEach n ((List.range a).map Int.ofNat)).zip
        (drawsFrom (seed.getD e) sigma 0 (repeatEach n (hiddenMeans a intercept)))).length
        = a * n
    rw [List.length_zip, repeatEach_length, drawsFrom_length, repeatEach_length,
      List.length_map, List.length_range, hiddenMeans, List.length_map, List.length_range,
      min_self, Nat.mul_comm]

/-! ### Claim C10 -/

/-- C10: the engine does not mutate its input: threading the dataset through
the reads the source performs returns the result together with the dataset
the caller passed in, unchanged. -/
theorem c10_dataset_unchanged (sf : Sf) (d : Dataset) :
    (anova_one_way_run sf d).2 = d ∧
      (anova_one_way_run sf d).1 = anova_one_way sf d :=
  ⟨rfl, rfl⟩

end Anova
